import Mathlib

/-!
# Verification of the midir ALSA backend (src/backend/alsa/mod.rs)

Shallow embedding of the input worker loop (`handle_input`), the connect
path (`MidiInput::connect`), the output send path
(`MidiOutputConnection::send`) and the `EventEncoder` buffer management,
together with theorems settling the frozen claims about the
natural-language specification.

Modelling conventions:
* Rust `u64`/`u32`/`usize` values are `Nat`, with an explicit `% 2^64`
  where wrap-around of `u64` subtraction matters (the timestamp delta).
* Rust `f64` arithmetic on the timestamp delta is modelled exactly over
  `ℚ`; the products involved (integer microsecond differences times the
  literal 0.000001) are decided at a scale where `f64` rounding is
  irrelevant to the claims (factor-of-1000 distinctions).
* Host-API calls (libc pipe, ALSA queue/port/subscription calls, thread
  spawn, encoder resize/encode, event output) are modelled by oracle
  booleans recording whether the call succeeds, and an explicit trace of
  performed host actions where a claim is about which calls happen.
* Rust panics (`unwrap` on `None`, failed `assert!`) are modelled by
  `Option`: `none` is a panic.
-/

namespace Midir

/-- Modelled from the spec (src/lib.rs is not under src/): the `Ignore`
bit set over {Sysex, Time, ActiveSense}; `Ignore::None` is all flags
false. `flags.contains(Ignore::X)` is the corresponding field. -/
structure Ignore where
  sysex : Bool
  time : Bool
  activeSense : Bool
  deriving Repr, DecidableEq

/-- The value Ignore::None: no event category is ignored. -/
def Ignore.noneFlags : Ignore := ⟨false, false, false⟩

/-- The ALSA sequencer event types distinguished by `handle_input`
(lines 626-665). All event types not matched explicitly fall into
`other` (the `_ => true` arm). -/
inductive EvType where
  | portSubscribed
  | portUnsubscribed
  | qframe
  | tick
  | clock
  | sensing
  | sysex
  | other
  deriving Repr, DecidableEq

/-- One ALSA sequencer event as seen by `handle_input`:
* `type` is `ev.get_type()`;
* `payload` is `ev.get_ext().unwrap()` (the raw sysex fragment bytes,
  used only in the `Sysex` arm);
* `decoded` is the outcome of `coder.get_wrapped().decode(&mut buffer, &mut ev)`
  for events passed to the general decoder: `some bs` for `Ok(nbytes)`
  with `bs` the `nbytes` produced bytes (possibly `[]`), `none` for `Err`;
* `secs`/`nsecs` are `ev.get_time().unwrap().as_secs()/.subsec_nanos()`
  (`u32` values in ALSA). -/
structure Event where
  type : EvType
  payload : List Nat
  decoded : Option (List Nat)
  secs : Nat
  nsecs : Nat
  deriving Repr, DecidableEq

/-- Line 685: `( secs as u64 * 1_000_000 ) + ( nsecs as u64/1_000 )`.
With `secs`, `nsecs` being `u32`, the `u64` arithmetic cannot overflow,
so plain `Nat` arithmetic is exact. -/
def Event.time (ev : Event) : Nat :=
  ev.secs * 1000000 + ev.nsecs / 1000

/-- The state of the worker loop that persists across iterations
(`handle_input` locals `last_time`, `continue_sysex`, `message.bytes`). -/
structure WorkerState where
  last_time : Option Nat
  continue_sysex : Bool
  message : List Nat
  deriving Repr, DecidableEq

/-- Worker-loop state at thread start (lines 549-550, 573). -/
def WorkerState.initial : WorkerState := ⟨none, false, []⟩

/-- One message delivered to the user callback: the `timestamp` delta
passed as first argument, the `bytes` passed as second argument, and the
computed event time in microseconds (recorded for stating timestamp
properties). -/
structure Delivered where
  delta : ℚ
  bytes : List Nat
  time : Nat
  deriving Repr, DecidableEq

/-- Line 688: `(timestamp - last) as f64 * 0.000001`, with `u64`
wrap-around subtraction made explicit and `f64` modelled over `ℚ`. -/
def wrapDelta (last t : Nat) : ℚ :=
  (((t + 2^64 - last) % 2^64 : Nat) : ℚ) * (1/1000000)

/-- Line 604: `if !continue_sysex { message.bytes.clear() }`. -/
def clearUnlessSysex (st : WorkerState) : List Nat :=
  if st.continue_sysex then st.message else []

/-- Lines 676-692: the delivery check and timestamp computation at the
end of one loop iteration. `m` is the message buffer after this
iteration's appends, `cont` the (possibly updated) `continue_sysex`,
`t` the event time in microseconds. -/
def deliverCheck (last_time : Option Nat) (cont : Bool) (m : List Nat) (t : Nat) :
    WorkerState × Option Delivered :=
  if m.isEmpty || cont then
    (⟨last_time, cont, m⟩, none)
  else
    let delta : ℚ :=
      match last_time with
      | none => 0
      | some last => wrapDelta last t
    (⟨some t, cont, m⟩, some ⟨delta, m, t⟩)

/-- Lines 668-674: if `do_decode`, run the general decoder and append
its output bytes to the message buffer; decode errors append nothing. -/
def decodeAppend (msg : List Nat) (ev : Event) : List Nat :=
  match ev.decoded with
  | some bs => msg ++ bs
  | none => msg

/-- Lines 604-692 of `handle_input`: processing of one successfully
pulled sequencer event — clear the buffer unless mid-sysex, classify the
event (lines 626-665), append bytes, and run the delivery check.
`none` models the panic of `message.bytes.last().unwrap()` on line 660. -/
def processEvent (flags : Ignore) (st : WorkerState) (ev : Event) :
    Option (WorkerState × Option Delivered) :=
  let msg0 := clearUnlessSysex st
  match ev.type with
  | .portSubscribed =>
      some (deliverCheck st.last_time st.continue_sysex msg0 ev.time)
  | .portUnsubscribed =>
      some (deliverCheck st.last_time st.continue_sysex msg0 ev.time)
  | .qframe =>
      some (deliverCheck st.last_time st.continue_sysex
        (if flags.time then msg0 else decodeAppend msg0 ev) ev.time)
  | .tick =>
      some (deliverCheck st.last_time st.continue_sysex
        (if flags.time then msg0 else decodeAppend msg0 ev) ev.time)
  | .clock =>
      some (deliverCheck st.last_time st.continue_sysex
        (if flags.time then msg0 else decodeAppend msg0 ev) ev.time)
  | .sensing =>
      some (deliverCheck st.last_time st.continue_sysex
        (if flags.activeSense then msg0 else decodeAppend msg0 ev) ev.time)
  | .sysex =>
      if flags.sysex then
        some (deliverCheck st.last_time st.continue_sysex msg0 ev.time)
      else
        let m := msg0 ++ ev.payload
        match m.getLast? with
        | none => none
        | some b => some (deliverCheck st.last_time (b != 0xF7) m ev.time)
  | .other =>
      some (deliverCheck st.last_time st.continue_sysex (decodeAppend msg0 ev) ev.time)

/-- Iterated event processing: the event-pulling iterations of the
worker loop over a given list of pulled events, collecting the callback
invocations in order. `none` propagates a panic. -/
def runEvents (flags : Ignore) (st : WorkerState) : List Event → Option (WorkerState × List Delivered)
  | [] => some (st, [])
  | ev :: evs =>
      match processEvent flags st ev with
      | none => none
      | some (st', out) =>
          match runEvents flags st' evs with
          | none => none
          | some (st'', outs) => some (st'', out.toList ++ outs)

/-- The timestamp delta computed on lines 686-689 as a function of the
stored `last_time` and the current event time. -/
def deltaOf : Option Nat → Nat → ℚ
  | none, _ => 0
  | some last, t => wrapDelta last t

/-- The stored previous-timestamp baseline after a list of deliveries:
unchanged when nothing was delivered, else the time of the last
delivered message. -/
def lastTimeAfter (lt : Option Nat) (outs : List Delivered) : Option Nat :=
  match outs.getLast? with
  | none => lt
  | some d => some d.time

/-- The relation between the stored baseline and the deltas of a list of
deliveries, in delivery order: the first delta is computed from the
incoming baseline, and the baseline is updated to the delivered time at
each delivery. -/
def DeltasFrom : Option Nat → List Delivered → Prop
  | _, [] => True
  | lt, d :: ds => d.delta = deltaOf lt d.time ∧ DeltasFrom (some d.time) ds

/-! ## The input connect path (`MidiInput::connect`, lines 216-287) -/

/-- Host-API calls performed by `MidiInput::connect`, in program order:
`libc::pipe` (init_trigger, line 221), `alloc_named_queue` (init_queue,
line 226, default build without `avoid_timestamping`), the port-info
lookup (line 228), `create_port` (line 238), `subscribe_port` (line 249),
queue start (line 255) and the handler thread spawn (line 269). -/
inductive HostAction where
  | pipe
  | allocQueue
  | getPortInfo
  | createPort
  | subscribePort
  | startQueue
  | spawnThread
  deriving Repr, DecidableEq

/-- Success oracles for the host-API calls made by `connect`. -/
structure InHost where
  pipe_ok : Bool
  port_exists : Bool
  create_port_ok : Bool
  subscribe_ok : Bool
  spawn_ok : Bool
  deriving Repr, DecidableEq

/-- The `MidiInput` object (lines 111-114): the ignore flags and the
optional sequencer handle (modelled as an opaque numeric id). -/
structure MidiInput where
  ignore_flags : Ignore
  seq : Option Nat
  deriving Repr, DecidableEq

/-- Modelled from the spec §7 (the errors module is not under src/):
the kind of a connect error, `PortNumberOutOfRange` or `Other(message)`. -/
inductive ConnectErrorKind where
  | portNumberOutOfRange
  | other (msg : String)
  deriving Repr, DecidableEq

/-- Modelled from the spec §7 (the errors module is not under src/):
a connect error always carries back the pre-connect object, matching the
`ConnectError::new(kind, self)` / `ConnectError::other(msg, self)` calls
in `connect`. -/
structure ConnectError where
  kind : ConnectErrorKind
  inner : MidiInput
  deriving Repr, DecidableEq

/-- The successfully connected object (fields irrelevant to the claims
are reduced to the subscription presence and the virtual port id). -/
structure MidiInputConnection where
  hasSubscription : Bool
  vport : Nat
  deriving Repr, DecidableEq

/-- Lines 216-287: `MidiInput::connect`, with the performed host actions
recorded in order. Failure of a host call is dictated by the `InHost`
oracle; `CString::new(port_name)` fails iff the name contains a 0 byte.
The sequencer handle is taken out of `self` on line 260, before the
thread spawn on line 269. -/
def connect (host : InHost) (inp : MidiInput) (portName : List Nat) :
    Except ConnectError MidiInputConnection × List HostAction :=
  if host.pipe_ok = false then
    (.error ⟨.other "could not create communication pipe for ALSA handler", inp⟩, [.pipe])
  else if host.port_exists = false then
    (.error ⟨.portNumberOutOfRange, inp⟩, [.pipe, .allocQueue, .getPortInfo])
  else if 0 ∈ portName then
    (.error ⟨.other "port_name must not contain null bytes", inp⟩,
      [.pipe, .allocQueue, .getPortInfo])
  else if host.create_port_ok = false then
    (.error ⟨.other "could not create ALSA input port", inp⟩,
      [.pipe, .allocQueue, .getPortInfo, .createPort])
  else if host.subscribe_ok = false then
    (.error ⟨.other "could not create ALSA input subscription", inp⟩,
      [.pipe, .allocQueue, .getPortInfo, .createPort, .subscribePort])
  else if host.spawn_ok = false then
    (.error ⟨.other "could not start ALSA input handler thread", { inp with seq := none }⟩,
      [.pipe, .allocQueue, .getPortInfo, .createPort, .subscribePort, .startQueue, .spawnThread])
  else
    (.ok ⟨true, 0⟩,
      [.pipe, .allocQueue, .getPortInfo, .createPort, .subscribePort, .startQueue, .spawnThread])

/-! ## The output send path (`MidiOutputConnection::send`, lines 500-526)
and the `EventEncoder` (lines 72-106) -/

/-- The buffer of the wrapped `alsa::seq::MidiEvent`: its actual
capacity. -/
structure MidiEventBuf where
  capacity : Nat
  deriving Repr, DecidableEq

/-- Lines 72-75: the encoder wraps a `MidiEvent` and stores its buffer
size in a separate field. -/
structure EventEncoder where
  ev : MidiEventBuf
  buffer_size : Nat
  deriving Repr, DecidableEq

/-- Lines 79-84: `EventEncoder::new`. -/
def EventEncoder.new (bufferSize : Nat) : EventEncoder :=
  ⟨⟨bufferSize⟩, bufferSize⟩

/-- The underlying `snd_midi_event_resize_buffer` call on the wrapped
event: on success the real capacity becomes `bufsize`; on failure the
buffer is unchanged. `ok` is the oracle for the ALSA call outcome. -/
def MidiEventBuf.resize (_b : MidiEventBuf) (ok : Bool) (bufsize : Nat) :
    Except Unit MidiEventBuf :=
  if ok then .ok ⟨bufsize⟩ else .error ()

/-- Lines 92-100: `EventEncoder::resize_buffer` — the `buffer_size`
field is updated only in the `Ok` arm of the underlying resize; on
`Err` the encoder is returned unchanged. -/
def EventEncoder.resize_buffer (enc : EventEncoder) (ok : Bool) (bufsize : Nat) :
    Except Unit Unit × EventEncoder :=
  match enc.ev.resize ok bufsize with
  | .ok ev' => (.ok (), { ev := ev', buffer_size := bufsize })
  | .error _ => (.error (), enc)

/-- Modelled from the spec §7 (the errors module is not under src/):
per-call send errors, `InvalidData(message)` or `Other(message)`. -/
inductive SendError where
  | invalidData (msg : String)
  | other (msg : String)
  deriving Repr, DecidableEq

/-- The encoded ALSA event handed to the output path, after the tagging
of lines 515-517: `set_source(vport)`, `set_subs()`, `set_direct()`. -/
structure OutEvent where
  bytes : List Nat
  source : Int
  subs : Bool
  direct : Bool
  deriving Repr, DecidableEq

/-- The output connection state relevant to `send`: the virtual port id
and the encoder (lines 404-409). -/
structure MidiOutputConnection where
  vport : Int
  coder : EventEncoder
  deriving Repr, DecidableEq

/-- Success oracles for the host calls made by `send`: the buffer
resize, the encode step, and `event_output`. -/
structure OutHost where
  resize_ok : Bool
  encode_ok : Bool
  output_ok : Bool
  deriving Repr, DecidableEq

/-- Host steps attempted by `send`, in order. -/
inductive SendAction where
  | resizeBuffer
  | encode
  | output
  | drain
  deriving Repr, DecidableEq

/-- Lines 510-525 of `send`: the encode step and everything after it.
`tr` is the trace accumulated so far. On encode failure no event is
produced; otherwise the event is tagged with the connection's virtual
port, marked for subscribers and direct delivery, handed to
`event_output` and the output is drained. -/
def sendEncode (host : OutHost) (conn : MidiOutputConnection) (message : List Nat)
    (tr : List SendAction) :
    Except SendError Unit × MidiOutputConnection × List SendAction × Option OutEvent :=
  if host.encode_ok = false then
    (.error (.invalidData "ALSA encoder reported invalid data"), conn, tr ++ [.encode], none)
  else
    let ev : OutEvent := { bytes := message, source := conn.vport, subs := true, direct := true }
    if host.output_ok = false then
      (.error (.other "could not send encoded ALSA message"), conn,
        tr ++ [.encode, .output], some ev)
    else
      (.ok (), conn, tr ++ [.encode, .output, .drain], some ev)

/-- Lines 500-526: `MidiOutputConnection::send`. The result carries the
call outcome, the updated connection, the trace of attempted host steps,
and the encoded event handed to `event_output` (if any). `none` models
the panic of the `assert!` on line 502 when the length exceeds
`u32::MAX`. -/
def send (host : OutHost) (conn : MidiOutputConnection) (message : List Nat) :
    Option (Except SendError Unit × MidiOutputConnection × List SendAction × Option OutEvent) :=
  let nbytes := message.length
  if nbytes > 2^32 - 1 then none
  else if nbytes > conn.coder.buffer_size then
    match conn.coder.resize_buffer host.resize_ok nbytes with
    | (.error _, _) =>
        some (.error (.other "could not resize ALSA encoding buffer"), conn,
          [.resizeBuffer], none)
    | (.ok _, coder') =>
        some (sendEncode host { conn with coder := coder' } message [.resizeBuffer])
  else
    some (sendEncode host conn message [])

/-! ## The worker loop shell (`handle_input`, lines 579-693) -/

/-- The loop-carried state of `handle_input`: the `do_input` flag and
the message-assembly state. -/
structure LoopState where
  doInput : Bool
  ws : WorkerState
  deriving Repr, DecidableEq

/-- What one iteration of the `while do_input` loop observes:
* `noData pollRet triggerReadable readVal` — `event_input_pending`
  reported `Ok(0)` (lines 580-589); `pollRet` is the `poll` return
  value, `triggerReadable` whether `revents & POLLIN != 0` on the
  trigger descriptor, and `readVal` the boolean read from the trigger
  pipe (`none` if the `libc::read` fails, leaving `do_input` unchanged);
* `readErr code` — `event_input` returned an error (lines 611-624):
  `-ENOSPC` (buffer overrun), `-EAGAIN` (no data) or any other code;
* `event ev` — `event_input` returned an event. -/
inductive LoopInput where
  | noData (pollRet : Int) (triggerReadable : Bool) (readVal : Option Bool)
  | readErr (code : Int)
  | event (ev : Event)
  deriving Repr, DecidableEq

/-- One iteration of the `while do_input` loop (lines 579-693). In the
`noData` branch the loop re-polls without touching the message state; in
the `readErr` branch the buffer has already been cleared (line 604, when
not mid-sysex) before the failing `event_input`, and the loop continues;
an `event` is processed by `processEvent`. `none` models a panic. -/
def loopStep (flags : Ignore) (st : LoopState) : LoopInput → Option (LoopState × Option Delivered)
  | .noData pollRet triggerReadable readVal =>
      if 0 ≤ pollRet ∧ triggerReadable = true then
        match readVal with
        | some v => some (⟨v, st.ws⟩, none)
        | none => some (st, none)
      else some (st, none)
  | .readErr _ =>
      some (⟨st.doInput, ⟨st.ws.last_time, st.ws.continue_sysex, clearUnlessSysex st.ws⟩⟩, none)
  | .event ev =>
      match processEvent flags st.ws ev with
      | none => none
      | some (ws', out) => some (⟨st.doInput, ws'⟩, out)

/-! ## Concrete inputs used by witnesses and counterexamples -/

/-- A note-on event captured at 1.000000 s. -/
def evA : Event := ⟨.other, [], some [0x90, 60, 100], 1, 0⟩

/-- A note-off event captured at 1.002500 s. -/
def evB : Event := ⟨.other, [], some [0x80, 60, 0], 1, 2500000⟩

/-- First fragment of a three-fragment sysex run. -/
def sx1 : Event := ⟨.sysex, [0xF0, 1, 2], none, 1, 0⟩

/-- Middle fragment of a three-fragment sysex run. -/
def sx2 : Event := ⟨.sysex, [3, 4], none, 1, 1000⟩

/-- Final fragment of a three-fragment sysex run, ending in 0xF7. -/
def sx3 : Event := ⟨.sysex, [5, 0xF7], none, 1, 2000⟩

/-! ## Helper lemmas about the delivery check and the step function -/

theorem deliverCheck_cases (lt : Option Nat) (cont : Bool) (m : List Nat) (t : Nat) :
    deliverCheck lt cont m t = (⟨lt, cont, m⟩, none) ∨
    deliverCheck lt cont m t = (⟨some t, cont, m⟩, some ⟨deltaOf lt t, m, t⟩) := by
  unfold deliverCheck
  split
  · left; rfl
  · right; cases lt <;> rfl

theorem deliverCheck_skip (lt : Option Nat) (cont : Bool) (m : List Nat) (t : Nat)
    (h : (m.isEmpty || cont) = true) :
    deliverCheck lt cont m t = (⟨lt, cont, m⟩, none) := by
  simp [deliverCheck, h]

theorem deliverCheck_deliver (lt : Option Nat) (cont : Bool) (m : List Nat) (t : Nat)
    (h : (m.isEmpty || cont) = false) :
    deliverCheck lt cont m t = (⟨some t, cont, m⟩, some ⟨deltaOf lt t, m, t⟩) := by
  simp only [deliverCheck, h]
  cases lt <;> rfl

theorem processEvent_shape (flags : Ignore) (st : WorkerState) (ev : Event) :
    processEvent flags st ev = none ∨
    ∃ c m, processEvent flags st ev = some (deliverCheck st.last_time c m ev.time) := by
  unfold processEvent
  cases ev.type
  case portSubscribed => exact Or.inr ⟨_, _, rfl⟩
  case portUnsubscribed => exact Or.inr ⟨_, _, rfl⟩
  case qframe => exact Or.inr ⟨_, _, rfl⟩
  case tick => exact Or.inr ⟨_, _, rfl⟩
  case clock => exact Or.inr ⟨_, _, rfl⟩
  case sensing => exact Or.inr ⟨_, _, rfl⟩
  case sysex =>
    by_cases hs : flags.sysex
    · simp only [hs, if_true]
      exact Or.inr ⟨_, _, rfl⟩
    · simp only [hs, if_false, Bool.false_eq_true]
      cases hm : (clearUnlessSysex st ++ ev.payload).getLast? with
      | none => exact Or.inl rfl
      | some b => exact Or.inr ⟨_, _, rfl⟩
  case other => exact Or.inr ⟨_, _, rfl⟩

theorem processEvent_last_time (flags : Ignore) (st : WorkerState) (ev : Event)
    (st' : WorkerState) (out : Option Delivered)
    (h : processEvent flags st ev = some (st', out)) :
    (out = none ∧ st'.last_time = st.last_time) ∨
    (∃ d, out = some d ∧ d.delta = deltaOf st.last_time d.time ∧ st'.last_time = some d.time) := by
  rcases processEvent_shape flags st ev with hn | ⟨c, m, he⟩
  · rw [hn] at h; exact absurd h (by simp)
  · rw [he] at h
    rcases deliverCheck_cases st.last_time c m ev.time with hd | hd <;> rw [hd] at h <;>
      injection h with h1 <;> injection h1 with h2 h3
    · exact Or.inl ⟨h3.symm, by rw [← h2]⟩
    · exact Or.inr ⟨⟨deltaOf st.last_time ev.time, m, ev.time⟩, h3.symm, rfl, by rw [← h2]⟩

theorem lastTimeAfter_cons (lt : Option Nat) (d : Delivered) (outs : List Delivered) :
    lastTimeAfter lt (d :: outs) = lastTimeAfter (some d.time) outs := by
  cases outs with
  | nil => simp [lastTimeAfter]
  | cons b bs =>
    unfold lastTimeAfter
    rw [List.getLast?_cons_cons]
    cases hgl : (b :: bs).getLast? with
    | none =>
      have hne : (b :: bs) ≠ [] := by simp
      rw [← List.getLast?_isSome] at hne
      rw [hgl] at hne
      simp at hne
    | some x => rfl

theorem runEvents_cons (flags : Ignore) (st : WorkerState) (ev : Event) (evs : List Event) :
    runEvents flags st (ev :: evs) =
      match processEvent flags st ev with
      | none => none
      | some (st', out) =>
          match runEvents flags st' evs with
          | none => none
          | some (st'', outs) => some (st'', out.toList ++ outs) := rfl

theorem runEvents_deltas (flags : Ignore) :
    ∀ (evs : List Event) (st st' : WorkerState) (outs : List Delivered),
      runEvents flags st evs = some (st', outs) →
      DeltasFrom st.last_time outs ∧ st'.last_time = lastTimeAfter st.last_time outs := by
  intro evs
  induction evs with
  | nil =>
    intro st st' outs h
    simp only [runEvents, Option.some.injEq, Prod.mk.injEq] at h
    obtain ⟨rfl, rfl⟩ := h
    exact ⟨trivial, rfl⟩
  | cons ev evs ih =>
    intro st st' outs h
    rw [runEvents_cons] at h
    cases hp : processEvent flags st ev with
    | none => simp [hp] at h
    | some p =>
      obtain ⟨st₁, out⟩ := p
      simp only [hp] at h
      cases hr : runEvents flags st₁ evs with
      | none => simp [hr] at h
      | some q =>
        obtain ⟨st₂, outs₁⟩ := q
        simp only [hr, Option.some.injEq, Prod.mk.injEq] at h
        obtain ⟨rfl, rfl⟩ := h
        have hrec := ih st₁ st₂ outs₁ hr
        rcases processEvent_last_time flags st ev st₁ out hp with ⟨rfl, hlt⟩ | ⟨d, rfl, hd, hlt⟩
        · simpa [Option.toList, ← hlt] using hrec
        · simp only [Option.toList, List.singleton_append]
          rw [hlt] at hrec
          refine ⟨⟨hd, hrec.1⟩, ?_⟩
          rw [lastTimeAfter_cons]
          exact hrec.2

theorem deltasFrom_head (lt : Option Nat) (outs : List Delivered) (h : DeltasFrom lt outs) :
    ∀ d ∈ outs.head?, d.delta = deltaOf lt d.time := by
  cases outs with
  | nil => simp
  | cons d ds =>
    intro b hb
    simp only [List.head?_cons, Option.mem_def, Option.some.injEq] at hb
    subst hb
    exact h.1

theorem wrapDelta_eq (last t : Nat) (h1 : last ≤ t) (h2 : t - last < 2 ^ 64) :
    wrapDelta last t = ((t - last : ℕ) : ℚ) * (1 / 1000000) := by
  unfold wrapDelta
  have : (t + 2 ^ 64 - last) % 2 ^ 64 = t - last := by omega
  rw [this]

theorem deltasFrom_chain (lt : Option Nat) (outs : List Delivered) (h : DeltasFrom lt outs) :
    outs.Chain' (fun a b => a.time ≤ b.time → b.time - a.time < 2 ^ 64 →
      b.delta = ((b.time - a.time : ℕ) : ℚ) * (1 / 1000000)) := by
  induction outs generalizing lt with
  | nil => exact List.chain'_nil
  | cons d ds ih =>
    simp only [DeltasFrom] at h
    rw [List.chain'_cons']
    refine ⟨?_, ih (some d.time) h.2⟩
    intro b hb h1 h2
    cases ds with
    | nil => simp at hb
    | cons b' ds' =>
      simp only [List.head?_cons, Option.mem_def, Option.some.injEq] at hb
      have hrest := h.2
      simp only [DeltasFrom] at hrest
      subst hb
      rw [hrest.1]
      exact wrapDelta_eq d.time b'.time h1 h2


/-! ## Claim theorems -/

/-- C2: For every sequence of delivered messages, the first message
delivered to the callback has timestamp delta 0, every subsequent
message's delta equals (current event time in microseconds minus
previous delivered message's time in microseconds) multiplied by 1e-6,
and the stored previous timestamp (`last_time`) is updated exactly at
each delivery: after the run it holds the time of the last delivered
message. -/
theorem first_delta_zero_and_deltas_from_previous_delivery (flags : Ignore)
    (evs : List Event) (st' : WorkerState) (outs : List Delivered)
    (h : runEvents flags WorkerState.initial evs = some (st', outs)) :
    (∀ d ∈ outs.head?, d.delta = 0) ∧
    outs.Chain' (fun a b => a.time ≤ b.time → b.time - a.time < 2 ^ 64 →
      b.delta = ((b.time - a.time : ℕ) : ℚ) * (1 / 1000000)) ∧
    st'.last_time = outs.getLast?.map Delivered.time := by
  obtain ⟨hdf, hlt⟩ := runEvents_deltas flags evs WorkerState.initial st' outs h
  refine ⟨?_, deltasFrom_chain _ _ hdf, ?_⟩
  · intro d hd
    have := deltasFrom_head _ _ hdf d hd
    simpa [WorkerState.initial, deltaOf] using this
  · rw [hlt]
    simp only [WorkerState.initial]
    cases houts : outs.getLast? <;> simp [lastTimeAfter, houts]

/-- Witness for C2 at a concrete two-event input. -/
theorem first_delta_zero_witness :
    (∀ d ∈ ([⟨0, [0x90, 60, 100], 1000000⟩,
             ⟨wrapDelta 1000000 1002500, [0x80, 60, 0], 1002500⟩] : List Delivered).head?,
       d.delta = 0) ∧
    ([⟨0, [0x90, 60, 100], 1000000⟩,
      ⟨wrapDelta 1000000 1002500, [0x80, 60, 0], 1002500⟩] : List Delivered).Chain'
      (fun a b => a.time ≤ b.time → b.time - a.time < 2 ^ 64 →
        b.delta = ((b.time - a.time : ℕ) : ℚ) * (1 / 1000000)) ∧
    (⟨some 1002500, false, [0x80, 60, 0]⟩ : WorkerState).last_time =
      (([⟨0, [0x90, 60, 100], 1000000⟩,
         ⟨wrapDelta 1000000 1002500, [0x80, 60, 0], 1002500⟩] : List Delivered).getLast?).map
        Delivered.time :=
  first_delta_zero_and_deltas_from_previous_delivery Ignore.noneFlags [evA, evB]
    ⟨some 1002500, false, [0x80, 60, 0]⟩
    [⟨0, [0x90, 60, 100], 1000000⟩, ⟨wrapDelta 1000000 1002500, [0x80, 60, 0], 1002500⟩]
    rfl


theorem processEvent_sysex_eq (flags : Ignore) (st : WorkerState) (ev : Event)
    (hnosys : flags.sysex = false) (hty : ev.type = .sysex) :
    processEvent flags st ev =
      match (clearUnlessSysex st ++ ev.payload).getLast? with
      | none => none
      | some b =>
          some (deliverCheck st.last_time (b != 0xF7)
            (clearUnlessSysex st ++ ev.payload) ev.time) := by
  unfold processEvent
  rw [hty]
  simp [hnosys]

theorem getLast?_exists_of_ne_nil {α : Type} {l : List α} (h : l ≠ []) :
    ∃ b, l.getLast? = some b := by
  rw [← Option.isSome_iff_exists]
  exact List.getLast?_isSome.mpr h

theorem sysex_accum (flags : Ignore) (hnosys : flags.sysex = false) :
    ∀ (mid : List Event) (st : WorkerState),
      (∀ e ∈ mid, e.type = .sysex ∧ e.payload ≠ [] ∧ e.payload.getLast? ≠ some 0xF7) →
      ∃ st', runEvents flags st mid = some (st', []) ∧
        st'.last_time = st.last_time ∧
        clearUnlessSysex st' = clearUnlessSysex st ++ (mid.map Event.payload).flatten := by
  intro mid
  induction mid with
  | nil => intro st _; exact ⟨st, rfl, rfl, by simp⟩
  | cons e rest ih =>
    intro st hall
    obtain ⟨hty, hp, hnf⟩ := hall e (by simp)
    obtain ⟨b, hb⟩ := getLast?_exists_of_ne_nil hp
    have hm : (clearUnlessSysex st ++ e.payload).getLast? = some b := by
      rw [List.getLast?_append_of_ne_nil _ hp]; exact hb
    have hbne : b ≠ 0xF7 := fun hc => hnf (by rw [hb, hc])
    have hcont : (b != 0xF7) = true := by simp [hbne]
    have hstep : processEvent flags st e =
        some (⟨st.last_time, true, clearUnlessSysex st ++ e.payload⟩, none) := by
      rw [processEvent_sysex_eq flags st e hnosys hty]
      simp only [hm, hcont]
      rw [deliverCheck_skip _ _ _ _ (by simp)]
    obtain ⟨st', hrun, hlt, hacc⟩ :=
      ih ⟨st.last_time, true, clearUnlessSysex st ++ e.payload⟩
        (fun e' he' => hall e' (by simp [he']))
    refine ⟨st', ?_, by rw [hlt], ?_⟩
    · simp [runEvents_cons, hstep, hrun]
    · rw [hacc]
      simp [clearUnlessSysex]

theorem sysex_final (flags : Ignore) (st : WorkerState) (e : Event) (hnosys : flags.sysex = false)
    (hty : e.type = .sysex) (hp : e.payload ≠ []) (hlast : e.payload.getLast? = some 0xF7) :
    runEvents flags st [e] =
      some (⟨some e.time, false, clearUnlessSysex st ++ e.payload⟩,
        [⟨deltaOf st.last_time e.time, clearUnlessSysex st ++ e.payload, e.time⟩]) := by
  have hm : (clearUnlessSysex st ++ e.payload).getLast? = some 0xF7 := by
    rw [List.getLast?_append_of_ne_nil _ hp]; exact hlast
  have hemp : ((clearUnlessSysex st ++ e.payload).isEmpty || false) = false := by
    simp [List.isEmpty_iff, hp]
  have hstep : processEvent flags st e =
      some (⟨some e.time, false, clearUnlessSysex st ++ e.payload⟩,
        some ⟨deltaOf st.last_time e.time, clearUnlessSysex st ++ e.payload, e.time⟩) := by
    rw [processEvent_sysex_eq flags st e hnosys hty]
    simp only [hm]
    rw [show ((0xF7 : Nat) != 0xF7) = false by simp]
    rw [deliverCheck_deliver _ _ _ _ hemp]
  rw [runEvents_cons, hstep]
  rfl

theorem runEvents_append (flags : Ignore) :
    ∀ (l₁ l₂ : List Event) (st st₁ st₂ : WorkerState) (o₁ o₂ : List Delivered),
      runEvents flags st l₁ = some (st₁, o₁) →
      runEvents flags st₁ l₂ = some (st₂, o₂) →
      runEvents flags st (l₁ ++ l₂) = some (st₂, o₁ ++ o₂) := by
  intro l₁
  induction l₁ with
  | nil =>
    intro l₂ st st₁ st₂ o₁ o₂ h1 h2
    simp only [runEvents, Option.some.injEq, Prod.mk.injEq] at h1
    obtain ⟨rfl, rfl⟩ := h1
    simpa using h2
  | cons e rest ih =>
    intro l₂ st st₁ st₂ o₁ o₂ h1 h2
    rw [runEvents_cons] at h1
    cases hp : processEvent flags st e with
    | none => simp [hp] at h1
    | some p =>
      obtain ⟨stm, out⟩ := p
      simp only [hp] at h1
      cases hr : runEvents flags stm rest with
      | none => simp [hr] at h1
      | some q =>
        obtain ⟨str, outs⟩ := q
        simp only [hr, Option.some.injEq, Prod.mk.injEq] at h1
        obtain ⟨rfl, rfl⟩ := h1
        have hmerge := ih l₂ stm str st₂ outs o₂ hr h2
        rw [List.cons_append, runEvents_cons, hp]
        simp [hmerge]

/-- C1: For a sysex payload delivered as N host-event fragments (N-1
fragments `mid` followed by `lastE`) where every fragment is a non-empty
sysex fragment and only the last ends in the terminator byte 0xF7, and
`Ignore` does not contain Sysex, the worker invokes the callback exactly
once for the whole run, with bytes equal to the concatenation of all
fragment payloads in order; processing the first N-1 fragments (during
which the continuation flag is set) produces no callback at all. -/
theorem sysex_fragments_single_callback (flags : Ignore) (st : WorkerState)
    (mid : List Event) (lastE : Event)
    (hnosys : flags.sysex = false) (hst : st.continue_sysex = false)
    (hall : ∀ e ∈ mid ++ [lastE], e.type = .sysex ∧ e.payload ≠ [])
    (hmid : ∀ e ∈ mid, e.payload.getLast? ≠ some 0xF7)
    (hlast : lastE.payload.getLast? = some 0xF7) :
    (∃ st' d, runEvents flags st (mid ++ [lastE]) = some (st', [d]) ∧
       d.bytes = ((mid ++ [lastE]).map Event.payload).flatten ∧
       st'.continue_sysex = false) ∧
    (∃ stm, runEvents flags st mid = some (stm, [])) := by
  have hallmid : ∀ e ∈ mid, e.type = .sysex ∧ e.payload ≠ [] ∧
      e.payload.getLast? ≠ some 0xF7 := by
    intro e he
    obtain ⟨h1, h2⟩ := hall e (by simp [he])
    exact ⟨h1, h2, hmid e he⟩
  obtain ⟨stm, hrunMid, hlt, hacc⟩ := sysex_accum flags hnosys mid st hallmid
  obtain ⟨hty, hp⟩ := hall lastE (by simp)
  have hfin := sysex_final flags stm lastE hnosys hty hp hlast
  have hrun := runEvents_append flags mid [lastE] st stm _ [] _ hrunMid hfin
  refine ⟨⟨_, _, by simpa using hrun, ?_, rfl⟩, ⟨stm, hrunMid⟩⟩
  show clearUnlessSysex stm ++ lastE.payload = _
  rw [hacc]
  simp [clearUnlessSysex, hst]

/-- Witness for C1 at a concrete three-fragment sysex run. -/
theorem sysex_fragments_single_callback_witness :
    (∃ st' d, runEvents Ignore.noneFlags WorkerState.initial ([sx1, sx2] ++ [sx3]) =
        some (st', [d]) ∧
       d.bytes = (([sx1, sx2] ++ [sx3]).map Event.payload).flatten ∧
       st'.continue_sysex = false) ∧
    (∃ stm, runEvents Ignore.noneFlags WorkerState.initial [sx1, sx2] = some (stm, [])) :=
  sysex_fragments_single_callback Ignore.noneFlags WorkerState.initial [sx1, sx2] sx3
    rfl rfl (by decide) (by decide) (by decide)

/-- C9: In the Sysex branch of the worker loop (with Ignore::Sysex not
set), `message.bytes.last().unwrap()` is executed without an emptiness
guard after appending the fragment payload; whenever the fragment
payload is non-empty or accumulated sysex bytes are already present
(mid-sysex with a non-empty buffer), the access succeeds - the panic
branch (`none`) is unreachable under that precondition. -/
theorem sysex_last_unwrap_unreachable (flags : Ignore) (st : WorkerState) (ev : Event)
    (hnosys : flags.sysex = false) (hty : ev.type = .sysex)
    (hpre : ev.payload ≠ [] ∨ (st.continue_sysex = true ∧ st.message ≠ [])) :
    (processEvent flags st ev).isSome := by
  rw [processEvent_sysex_eq flags st ev hnosys hty]
  have hne : clearUnlessSysex st ++ ev.payload ≠ [] := by
    rcases hpre with h | ⟨h1, h2⟩
    · simp [h]
    · simp [clearUnlessSysex, h1, h2]
  obtain ⟨b, hb⟩ := getLast?_exists_of_ne_nil hne
  simp [hb]

/-- Witness for C9 at a concrete non-empty sysex fragment. -/
theorem sysex_last_unwrap_unreachable_witness :
    (processEvent Ignore.noneFlags WorkerState.initial sx3).isSome :=
  sysex_last_unwrap_unreachable Ignore.noneFlags WorkerState.initial sx3
    rfl rfl (Or.inl (by decide))

/-- C4: If `Ignore` contains Time, then for every Clock, Tick or Qframe
event the worker invokes no callback and leaves the stored
previous-timestamp baseline (`last_time`) unchanged (and the sysex
continuation flag as well), so the next delivered message's delta is
computed against the last actually delivered message. -/
theorem ignored_time_events_no_callback (flags : Ignore) (st : WorkerState) (ev : Event)
    (ht : flags.time = true)
    (hty : ev.type = .qframe ∨ ev.type = .tick ∨ ev.type = .clock) :
    ∃ st', processEvent flags st ev = some (st', none) ∧
      st'.last_time = st.last_time ∧ st'.continue_sysex = st.continue_sysex := by
  have hdc : deliverCheck st.last_time st.continue_sysex (clearUnlessSysex st) ev.time =
      (⟨st.last_time, st.continue_sysex, clearUnlessSysex st⟩, none) := by
    apply deliverCheck_skip
    cases hc : st.continue_sysex <;> simp [clearUnlessSysex, hc]
  refine ⟨⟨st.last_time, st.continue_sysex, clearUnlessSysex st⟩, ?_, rfl, rfl⟩
  rcases hty with h | h | h <;>
    (unfold processEvent; rw [h]; simp [ht, hdc])

/-- Witness for C4 at a concrete clock event with Time ignored. -/
theorem ignored_time_events_no_callback_witness :
    ∃ st', processEvent ⟨false, true, false⟩ WorkerState.initial ⟨.clock, [], none, 1, 0⟩ =
        some (st', none) ∧
      st'.last_time = WorkerState.initial.last_time ∧
      st'.continue_sysex = WorkerState.initial.continue_sysex :=
  ignored_time_events_no_callback ⟨false, true, false⟩ WorkerState.initial
    ⟨.clock, [], none, 1, 0⟩ rfl (Or.inr (Or.inr rfl))

/-- C3 counterexample: for two consecutively delivered non-sysex
messages captured at 1.000000 s and 1.002500 s, the delta passed to the
second callback invocation is 1/400 = 0.0025, not 2.5: the delta is not
expressed in milliseconds. -/
theorem delta_not_milliseconds :
    (runEvents Ignore.noneFlags WorkerState.initial [evA, evB]).map
      (fun p => p.2.map Delivered.delta) = some [0, 1/400] ∧
    (runEvents Ignore.noneFlags WorkerState.initial [evA, evB]).map
      (fun p => p.2.map Delivered.delta) ≠ some [0, 5/2] := by
  have h1 : (runEvents Ignore.noneFlags WorkerState.initial [evA, evB]).map
      (fun p => p.2.map Delivered.delta) = some [0, 1/400] := by
    simp [runEvents, processEvent, evA, evB, clearUnlessSysex, decodeAppend, deliverCheck,
      Event.time, wrapDelta, Ignore.noneFlags, WorkerState.initial]
    norm_num
  refine ⟨h1, ?_⟩
  rw [h1]
  intro h
  simp only [Option.some.injEq, List.cons.injEq] at h
  exact absurd h.2.1 (by norm_num)

/-- C3 amended: for two consecutively delivered non-sysex messages
captured at 1.000000 s and 1.002500 s, the delta passed to the second
callback invocation equals 2500 * 1e-6 = 0.0025, i.e. the microsecond
difference scaled by 0.000001 (a seconds-scale value). -/
theorem delta_seconds_scale :
    (runEvents Ignore.noneFlags WorkerState.initial [evA, evB]).map
      (fun p => p.2.map Delivered.delta) = some [0, (2500 : ℚ) * (1/1000000)] := by
  simp [runEvents, processEvent, evA, evB, clearUnlessSysex, decodeAppend, deliverCheck,
    Event.time, wrapDelta, Ignore.noneFlags, WorkerState.initial]


/-- C5 counterexample: when every host call succeeds except the thread
spawn, the connect error carries back a MidiInput whose sequencer handle
has already been taken (seq is none), unlike the original object. -/
theorem connect_spawn_failure_drops_seq :
    (connect ⟨true, true, true, true, false⟩ ⟨Ignore.noneFlags, some 7⟩ [0x70]).1 =
      .error ⟨.other "could not start ALSA input handler thread", ⟨Ignore.noneFlags, none⟩⟩ ∧
    (⟨Ignore.noneFlags, none⟩ : MidiInput).seq ≠
      (⟨Ignore.noneFlags, some 7⟩ : MidiInput).seq := by
  exact ⟨rfl, by simp⟩

/-- C5 amended: every failing input connect call returns an error value
carrying back the MidiInput object (ignore flags intact); in all failure
cases before the thread spawn the object is returned unchanged with its
sequencer handle still present, but on thread-spawn failure the handle
has already been moved out (seq is none). Connecting to an out-of-range
port index returns the PortNumberOutOfRange error kind without creating
the virtual port. -/
theorem connect_failure_returns_object (host : InHost) (inp : MidiInput) (nm : List Nat)
    (e : ConnectError) (h : (connect host inp nm).1 = .error e) :
    e.inner.ignore_flags = inp.ignore_flags ∧
    (e.inner = inp ∨ (host.spawn_ok = false ∧ e.inner = { inp with seq := none })) ∧
    (host.pipe_ok = true → host.port_exists = false →
      e.kind = .portNumberOutOfRange ∧ HostAction.createPort ∉ (connect host inp nm).2) := by
  unfold connect at h
  split_ifs at h with h1 h2 h3 h4 h5 h6 <;>
    simp only [Except.error.injEq] at h
  · subst h
    refine ⟨rfl, Or.inl rfl, ?_⟩
    intro hp _
    rw [hp] at h1
    simp at h1
  · subst h
    refine ⟨rfl, Or.inl rfl, fun _ _ => ⟨rfl, ?_⟩⟩
    simp [connect, h1, h2]
  · subst h
    refine ⟨rfl, Or.inl rfl, ?_⟩
    intro _ hpe
    rw [hpe] at h2
    simp at h2
  · subst h
    refine ⟨rfl, Or.inl rfl, ?_⟩
    intro _ hpe
    rw [hpe] at h2
    simp at h2
  · subst h
    refine ⟨rfl, Or.inl rfl, ?_⟩
    intro _ hpe
    rw [hpe] at h2
    simp at h2
  · subst h
    refine ⟨rfl, Or.inr ⟨h6, rfl⟩, ?_⟩
    intro _ hpe
    rw [hpe] at h2
    simp at h2

/-- Witness for C5 at a concrete out-of-range connect attempt. -/
theorem connect_failure_returns_object_witness :
    (⟨.portNumberOutOfRange, ⟨Ignore.noneFlags, some 7⟩⟩ : ConnectError).inner.ignore_flags =
      (⟨Ignore.noneFlags, some 7⟩ : MidiInput).ignore_flags ∧
    ((⟨.portNumberOutOfRange, ⟨Ignore.noneFlags, some 7⟩⟩ : ConnectError).inner =
        (⟨Ignore.noneFlags, some 7⟩ : MidiInput) ∨
      ((⟨true, false, true, true, true⟩ : InHost).spawn_ok = false ∧
        (⟨.portNumberOutOfRange, ⟨Ignore.noneFlags, some 7⟩⟩ : ConnectError).inner =
          { (⟨Ignore.noneFlags, some 7⟩ : MidiInput) with seq := none })) ∧
    ((⟨true, false, true, true, true⟩ : InHost).pipe_ok = true →
      (⟨true, false, true, true, true⟩ : InHost).port_exists = false →
      (⟨.portNumberOutOfRange, ⟨Ignore.noneFlags, some 7⟩⟩ : ConnectError).kind =
          .portNumberOutOfRange ∧
        HostAction.createPort ∉
          (connect ⟨true, false, true, true, true⟩ ⟨Ignore.noneFlags, some 7⟩ [0x70]).2) :=
  connect_failure_returns_object ⟨true, false, true, true, true⟩ ⟨Ignore.noneFlags, some 7⟩
    [0x70] ⟨.portNumberOutOfRange, ⟨Ignore.noneFlags, some 7⟩⟩ rfl

/-- C8 counterexample: with an embedded null byte in the port name and a
fully functional host, connect fails with the typed validation error,
but the host-action trace at that point already contains the pipe
creation and the queue allocation - host-API calls made before the
validation step. -/
theorem nullbyte_rejected_after_pipe_and_queue :
    (connect ⟨true, true, true, true, true⟩ ⟨Ignore.noneFlags, some 7⟩ [0x61, 0, 0x62]).1 =
      .error ⟨.other "port_name must not contain null bytes", ⟨Ignore.noneFlags, some 7⟩⟩ ∧
    (connect ⟨true, true, true, true, true⟩ ⟨Ignore.noneFlags, some 7⟩ [0x61, 0, 0x62]).2 =
      [.pipe, .allocQueue, .getPortInfo] ∧
    HostAction.pipe ∈
      (connect ⟨true, true, true, true, true⟩ ⟨Ignore.noneFlags, some 7⟩ [0x61, 0, 0x62]).2 ∧
    HostAction.allocQueue ∈
      (connect ⟨true, true, true, true, true⟩ ⟨Ignore.noneFlags, some 7⟩ [0x61, 0, 0x62]).2 := by
  refine ⟨rfl, rfl, ?_, ?_⟩ <;> decide

/-- C8 amended: an embedded null byte in the port name is rejected with
a typed error before the virtual port is created - no create_port,
subscribe_port or thread spawn occurs - although the pipe creation, the
queue allocation and the port-info lookup do happen before the
validation step. -/
theorem nullbyte_rejected_before_port_creation (host : InHost) (inp : MidiInput)
    (nm : List Nat) (hnull : 0 ∈ nm) (hp : host.pipe_ok = true)
    (hpe : host.port_exists = true) :
    (connect host inp nm).1 = .error ⟨.other "port_name must not contain null bytes", inp⟩ ∧
    HostAction.createPort ∉ (connect host inp nm).2 ∧
    HostAction.subscribePort ∉ (connect host inp nm).2 ∧
    HostAction.spawnThread ∉ (connect host inp nm).2 := by
  simp [connect, hnull, hp, hpe]

/-- Witness for C8 at a concrete port name containing a null byte. -/
theorem nullbyte_rejected_before_port_creation_witness :
    (connect ⟨true, true, true, true, true⟩ ⟨Ignore.noneFlags, some 8⟩ [0x61, 0]).1 =
      .error ⟨.other "port_name must not contain null bytes", ⟨Ignore.noneFlags, some 8⟩⟩ ∧
    HostAction.createPort ∉
      (connect ⟨true, true, true, true, true⟩ ⟨Ignore.noneFlags, some 8⟩ [0x61, 0]).2 ∧
    HostAction.subscribePort ∉
      (connect ⟨true, true, true, true, true⟩ ⟨Ignore.noneFlags, some 8⟩ [0x61, 0]).2 ∧
    HostAction.spawnThread ∉
      (connect ⟨true, true, true, true, true⟩ ⟨Ignore.noneFlags, some 8⟩ [0x61, 0]).2 :=
  nullbyte_rejected_before_port_creation ⟨true, true, true, true, true⟩
    ⟨Ignore.noneFlags, some 8⟩ [0x61, 0] (by decide) rfl rfl


/-- C6: For every send(bytes) call with the byte count fitting in an
unsigned 32-bit value: the call does not panic; if the length exceeds
the current encoder buffer size and the resize fails, the result is
SendError::Other with no encode and no transmitted event; if the encoder
rejects the bytes, the result is SendError::InvalidData with no
transmitted event; otherwise the event carries the message bytes, is
tagged with the connection's virtual port, marked for subscribers and
direct delivery, handed to the output step and the output is drained
(returning ok when the output call succeeds); and a performed resize
updates the encoder buffer size to the message length. -/
theorem send_contract (host : OutHost) (conn : MidiOutputConnection) (msg : List Nat)
    (hlen : msg.length ≤ 2 ^ 32 - 1) :
    ∃ res conn' tr tx, send host conn msg = some (res, conn', tr, tx) ∧
      (msg.length > conn.coder.buffer_size → host.resize_ok = false →
        res = .error (.other "could not resize ALSA encoding buffer") ∧ tx = none ∧
        SendAction.encode ∉ tr ∧ SendAction.output ∉ tr) ∧
      ((msg.length > conn.coder.buffer_size → host.resize_ok = true) →
        host.encode_ok = false →
        res = .error (.invalidData "ALSA encoder reported invalid data") ∧ tx = none ∧
        SendAction.output ∉ tr) ∧
      ((msg.length > conn.coder.buffer_size → host.resize_ok = true) →
        host.encode_ok = true →
        ∃ ev, tx = some ev ∧ ev.bytes = msg ∧ ev.source = conn.vport ∧
          ev.subs = true ∧ ev.direct = true ∧ SendAction.output ∈ tr ∧
          (host.output_ok = true → res = .ok () ∧ SendAction.drain ∈ tr)) ∧
      (msg.length > conn.coder.buffer_size → host.resize_ok = true →
        conn'.coder.buffer_size = msg.length) := by
  have hnp : ¬ msg.length > 2 ^ 32 - 1 := by omega
  by_cases hsz : msg.length > conn.coder.buffer_size
  · cases hro : host.resize_ok with
    | false =>
      refine ⟨.error (.other "could not resize ALSA encoding buffer"), conn,
        [.resizeBuffer], none, ?_, ?_, ?_, ?_, ?_⟩
      · simp [send, hnp, hsz, EventEncoder.resize_buffer, MidiEventBuf.resize, hro]; omega
      · exact fun _ _ => ⟨rfl, rfl, by decide, by decide⟩
      · exact fun hr _ => absurd (hr hsz) (by simp)
      · exact fun hr _ => absurd (hr hsz) (by simp)
      · exact fun _ hr => absurd hr (by simp)
    | true =>
      cases heo : host.encode_ok with
      | false =>
        refine ⟨.error (.invalidData "ALSA encoder reported invalid data"),
          { conn with coder := ⟨⟨msg.length⟩, msg.length⟩ },
          [.resizeBuffer, .encode], none, ?_, ?_, ?_, ?_, ?_⟩
        · simp [send, hnp, hsz, EventEncoder.resize_buffer, MidiEventBuf.resize, hro,
            sendEncode, heo]; omega
        · exact fun _ hro2 => absurd hro2 (by simp)
        · exact fun _ _ => ⟨rfl, rfl, by decide⟩
        · exact fun _ he => absurd he (by simp)
        · exact fun _ _ => rfl
      | true =>
        cases ho : host.output_ok with
        | false =>
          refine ⟨.error (.other "could not send encoded ALSA message"),
            { conn with coder := ⟨⟨msg.length⟩, msg.length⟩ },
            [.resizeBuffer, .encode, .output], some ⟨msg, conn.vport, true, true⟩,
            ?_, ?_, ?_, ?_, ?_⟩
          · simp [send, hnp, hsz, EventEncoder.resize_buffer, MidiEventBuf.resize, hro,
              sendEncode, heo, ho]; omega
          · exact fun _ hro2 => absurd hro2 (by simp)
          · exact fun _ he => absurd he (by simp)
          · exact fun _ _ =>
              ⟨⟨msg, conn.vport, true, true⟩, rfl, rfl, rfl, rfl, rfl, by decide,
                fun hoc => absurd hoc (by simp)⟩
          · exact fun _ _ => rfl
        | true =>
          refine ⟨.ok (), { conn with coder := ⟨⟨msg.length⟩, msg.length⟩ },
            [.resizeBuffer, .encode, .output, .drain], some ⟨msg, conn.vport, true, true⟩,
            ?_, ?_, ?_, ?_, ?_⟩
          · simp [send, hnp, hsz, EventEncoder.resize_buffer, MidiEventBuf.resize, hro,
              sendEncode, heo, ho]; omega
          · exact fun _ hro2 => absurd hro2 (by simp)
          · exact fun _ he => absurd he (by simp)
          · exact fun _ _ =>
              ⟨⟨msg, conn.vport, true, true⟩, rfl, rfl, rfl, rfl, rfl, by decide,
                fun _ => ⟨rfl, by decide⟩⟩
          · exact fun _ _ => rfl
  · cases heo : host.encode_ok with
    | false =>
      refine ⟨.error (.invalidData "ALSA encoder reported invalid data"), conn,
        [.encode], none, ?_, ?_, ?_, ?_, ?_⟩
      · simp [send, hnp, hsz, sendEncode, heo]; omega
      · exact fun hc => absurd hc hsz
      · exact fun _ _ => ⟨rfl, rfl, by decide⟩
      · exact fun _ he => absurd he (by simp)
      · exact fun hc => absurd hc hsz
    | true =>
      cases ho : host.output_ok with
      | false =>
        refine ⟨.error (.other "could not send encoded ALSA message"), conn,
          [.encode, .output], some ⟨msg, conn.vport, true, true⟩, ?_, ?_, ?_, ?_, ?_⟩
        · simp [send, hnp, hsz, sendEncode, heo, ho]; omega
        · exact fun hc => absurd hc hsz
        · exact fun _ he => absurd he (by simp)
        · exact fun _ _ =>
            ⟨⟨msg, conn.vport, true, true⟩, rfl, rfl, rfl, rfl, rfl, by decide,
              fun hoc => absurd hoc (by simp)⟩
        · exact fun hc => absurd hc hsz
      | true =>
        refine ⟨.ok (), conn, [.encode, .output, .drain],
          some ⟨msg, conn.vport, true, true⟩, ?_, ?_, ?_, ?_, ?_⟩
        · simp [send, hnp, hsz, sendEncode, heo, ho]; omega
        · exact fun hc => absurd hc hsz
        · exact fun _ he => absurd he (by simp)
        · exact fun _ _ =>
            ⟨⟨msg, conn.vport, true, true⟩, rfl, rfl, rfl, rfl, rfl, by decide,
              fun _ => ⟨rfl, by decide⟩⟩
        · exact fun hc => absurd hc hsz


/-- Witness for C6 at a concrete three-byte message on a fresh encoder. -/
theorem send_contract_witness :
    ∃ res conn' tr tx,
      send ⟨true, true, true⟩ ⟨5, EventEncoder.new 32⟩ [0x90, 60, 100] =
        some (res, conn', tr, tx) ∧
      (([0x90, 60, 100] : List Nat).length > (EventEncoder.new 32).buffer_size →
        (⟨true, true, true⟩ : OutHost).resize_ok = false →
        res = .error (.other "could not resize ALSA encoding buffer") ∧ tx = none ∧
        SendAction.encode ∉ tr ∧ SendAction.output ∉ tr) ∧
      ((([0x90, 60, 100] : List Nat).length > (EventEncoder.new 32).buffer_size →
          (⟨true, true, true⟩ : OutHost).resize_ok = true) →
        (⟨true, true, true⟩ : OutHost).encode_ok = false →
        res = .error (.invalidData "ALSA encoder reported invalid data") ∧ tx = none ∧
        SendAction.output ∉ tr) ∧
      ((([0x90, 60, 100] : List Nat).length > (EventEncoder.new 32).buffer_size →
          (⟨true, true, true⟩ : OutHost).resize_ok = true) →
        (⟨true, true, true⟩ : OutHost).encode_ok = true →
        ∃ ev, tx = some ev ∧ ev.bytes = [0x90, 60, 100] ∧ ev.source = (5 : Int) ∧
          ev.subs = true ∧ ev.direct = true ∧ SendAction.output ∈ tr ∧
          ((⟨true, true, true⟩ : OutHost).output_ok = true →
            res = .ok () ∧ SendAction.drain ∈ tr)) ∧
      (([0x90, 60, 100] : List Nat).length > (EventEncoder.new 32).buffer_size →
        (⟨true, true, true⟩ : OutHost).resize_ok = true →
        conn'.coder.buffer_size = ([0x90, 60, 100] : List Nat).length) :=
  send_contract ⟨true, true, true⟩ ⟨5, EventEncoder.new 32⟩ [0x90, 60, 100] (by decide)

theorem sendEncode_conn (host : OutHost) (c : MidiOutputConnection) (msg : List Nat)
    (tr : List SendAction) : (sendEncode host c msg tr).2.1 = c := by
  unfold sendEncode
  split_ifs <;> rfl

/-- C10: The EventEncoder maintains the invariant that its stored
buffer_size field equals the actual capacity of the underlying encode
buffer: a fresh encoder satisfies it, resize_buffer updates the field
exactly when the underlying resize succeeds and leaves the encoder
unchanged on failure, and send preserves the invariant, so the size
check performed by send always reflects the real capacity. -/
theorem encoder_buffer_size_reflects_capacity :
    (∀ n, (EventEncoder.new n).buffer_size = (EventEncoder.new n).ev.capacity) ∧
    (∀ (enc : EventEncoder) (ok : Bool) (n : Nat),
      ((enc.resize_buffer ok n).1 = .ok () →
        (enc.resize_buffer ok n).2.buffer_size = n ∧
        (enc.resize_buffer ok n).2.ev.capacity = n) ∧
      ((enc.resize_buffer ok n).1 = .error () → (enc.resize_buffer ok n).2 = enc)) ∧
    (∀ (host : OutHost) (conn : MidiOutputConnection) (msg : List Nat)
      (r : Except SendError Unit × MidiOutputConnection × List SendAction × Option OutEvent),
      conn.coder.buffer_size = conn.coder.ev.capacity →
      send host conn msg = some r →
      r.2.1.coder.buffer_size = r.2.1.coder.ev.capacity) := by
  refine ⟨fun n => rfl, fun enc ok n => ?_, fun host conn msg r hinv hs => ?_⟩
  · cases ok <;> simp [EventEncoder.resize_buffer, MidiEventBuf.resize]
  · by_cases hnp2 : msg.length > 2 ^ 32 - 1
    · exact absurd hs (by simp [send, show 4294967295 < msg.length by omega])
    · by_cases hsz : msg.length > conn.coder.buffer_size
      · cases hro : host.resize_ok with
        | false =>
          have hsend : send host conn msg =
              some (.error (.other "could not resize ALSA encoding buffer"), conn,
                [.resizeBuffer], none) := by
            simp [send, hnp2, hsz, EventEncoder.resize_buffer, MidiEventBuf.resize, hro]; omega
          rw [hsend] at hs
          obtain rfl := Option.some.inj hs
          exact hinv
        | true =>
          have hsend : send host conn msg =
              some (sendEncode host { conn with coder := ⟨⟨msg.length⟩, msg.length⟩ }
                msg [.resizeBuffer]) := by
            simp [send, hnp2, hsz, EventEncoder.resize_buffer, MidiEventBuf.resize, hro]; omega
          rw [hsend] at hs
          obtain rfl := Option.some.inj hs
          rw [sendEncode_conn]
      · have hsend : send host conn msg = some (sendEncode host conn msg []) := by
          simp [send, hnp2, hsz]; omega
        rw [hsend] at hs
        obtain rfl := Option.some.inj hs
        rw [sendEncode_conn]
        exact hinv

/-- Witness for C10 at a fresh encoder, a successful resize and a
concrete send. -/
theorem encoder_buffer_size_reflects_capacity_witness :
    (EventEncoder.new 32).buffer_size = (EventEncoder.new 32).ev.capacity ∧
    (((EventEncoder.new 32).resize_buffer true 64).2.buffer_size = 64 ∧
      ((EventEncoder.new 32).resize_buffer true 64).2.ev.capacity = 64) ∧
    (sendEncode ⟨true, true, true⟩ ⟨5, EventEncoder.new 32⟩
        [0x90, 60, 100] []).2.1.coder.buffer_size =
      (sendEncode ⟨true, true, true⟩ ⟨5, EventEncoder.new 32⟩
        [0x90, 60, 100] []).2.1.coder.ev.capacity :=
  ⟨encoder_buffer_size_reflects_capacity.1 32,
   (encoder_buffer_size_reflects_capacity.2.1 (EventEncoder.new 32) true 64).1 rfl,
   encoder_buffer_size_reflects_capacity.2.2 ⟨true, true, true⟩ ⟨5, EventEncoder.new 32⟩
     [0x90, 60, 100]
     (sendEncode ⟨true, true, true⟩ ⟨5, EventEncoder.new 32⟩ [0x90, 60, 100] []) rfl rfl⟩

/-- C7: The worker loop never terminates because of an event-read
error: every event-read error (buffer overrun, no-data race, or any
other transport error) leaves the loop running with no callback, and
the only way an iteration can clear the do_input flag is the no-data
branch in which the poll succeeded, the shutdown descriptor was
readable, and the stop flag read from it was false. -/
theorem worker_loop_exit_only_via_trigger (flags : Ignore) (st : LoopState)
    (hrun : st.doInput = true) :
    (∀ c, loopStep flags st (.readErr c) =
      some (⟨true, ⟨st.ws.last_time, st.ws.continue_sysex, clearUnlessSysex st.ws⟩⟩, none)) ∧
    (∀ inp st' out, loopStep flags st inp = some (st', out) → st'.doInput = false →
      ∃ pollRet, 0 ≤ pollRet ∧ inp = .noData pollRet true (some false)) := by
  constructor
  · intro c
    simp [loopStep, hrun]
  · intro inp st' out h hfalse
    cases inp with
    | noData pr trig rv =>
      simp only [loopStep] at h
      split_ifs at h with hcond
      · cases rv with
        | some v =>
          obtain ⟨h1, h2⟩ := Prod.mk.inj (Option.some.inj h)
          rw [← h1] at hfalse
          simp at hfalse
          subst hfalse
          exact ⟨pr, hcond.1, by rw [hcond.2]⟩
        | none =>
          obtain ⟨h1, h2⟩ := Prod.mk.inj (Option.some.inj h)
          rw [← h1, hrun] at hfalse
          exact absurd hfalse (by simp)
      · obtain ⟨h1, h2⟩ := Prod.mk.inj (Option.some.inj h)
        rw [← h1, hrun] at hfalse
        exact absurd hfalse (by simp)
    | readErr c =>
      simp only [loopStep] at h
      obtain ⟨h1, h2⟩ := Prod.mk.inj (Option.some.inj h)
      rw [← h1, hrun] at hfalse
      exact absurd hfalse (by simp)
    | event ev =>
      simp only [loopStep] at h
      cases hp : processEvent flags st.ws ev with
      | none => rw [hp] at h; exact absurd h (by simp)
      | some p =>
        obtain ⟨ws', o⟩ := p
        rw [hp] at h
        obtain ⟨h1, h2⟩ := Prod.mk.inj (Option.some.inj h)
        rw [← h1, hrun] at hfalse
        exact absurd hfalse (by simp)

/-- Witness for C7 at a running loop state. -/
theorem worker_loop_exit_only_via_trigger_witness :
    (∀ c, loopStep Ignore.noneFlags ⟨true, WorkerState.initial⟩ (.readErr c) =
      some (⟨true, ⟨WorkerState.initial.last_time, WorkerState.initial.continue_sysex,
        clearUnlessSysex WorkerState.initial⟩⟩, none)) ∧
    (∀ inp st' out,
      loopStep Ignore.noneFlags ⟨true, WorkerState.initial⟩ inp = some (st', out) →
      st'.doInput = false →
      ∃ pollRet, 0 ≤ pollRet ∧ inp = .noData pollRet true (some false)) :=
  worker_loop_exit_only_via_trigger Ignore.noneFlags ⟨true, WorkerState.initial⟩ rfl

end Midir
